import Mathlib

/-!
Verification of the workbook extraction and synchronization model of the
excel-viewer repository (src/src/App.js, src/src/working.js).

The JavaScript source is shallowly embedded: JS scalar cell values become the
inductive `JSVal`; JS arrays (which can be sparse and auto-extend on indexed
assignment) become `JArr`; object maps keyed by sheet name become association
lists; numeric metadata uses rationals with JS `Math.round` modelled as
`jsRound`.  The formula-evaluation engine (HyperFormula) is external to the
repository, so its evaluation function is an abstract parameter `evalF`;
the engine's stored per-cell contents are tracked concretely, because the
source pushes specific contents into it.
-/

/-- A JavaScript scalar cell value: string, integer number, or boolean.
(The repository's cell values come from the spreadsheet parser and from user
edits; numeric values are modelled as integers.) -/
inductive JSVal
  | vStr (s : String)
  | vNum (n : Int)
  | vBool (b : Bool)
deriving DecidableEq, Repr

/-- JS `String(x)` coercion on a cell value. -/
def jsString : JSVal → String
  | .vStr s => s
  | .vNum n => toString n
  | .vBool b => if b then "true" else "false"

/-- JS truthiness of an optional string: `undefined`/`null` and the empty
string are falsy. -/
def jsTruthyOptStr : Option String → Bool
  | none => false
  | some s => s != ""

/-- JS truthiness of an optional number: `undefined`/`null` and `0` are
falsy. -/
def jsTruthyOptQ : Option ℚ → Bool
  | none => false
  | some q => q != 0

/-- JS `s.slice(n)`: drop the first `n` characters. -/
def jsSlice (s : String) (n : Nat) : String :=
  String.mk (s.data.drop n)

/-- JS `Math.round`: round half toward positive infinity,
`Math.round x = Int.floor (x + 1/2)`. -/
def jsRound (q : ℚ) : ℤ :=
  Int.floor (q + 1/2)

/-- `excelWidthToPx` (App.js line 16): convert an Excel character width to
pixels, `Math.round(w * 7 + 5)`.  The JS function returns `undefined` on a
non-number; every call site passes a number, so the embedding takes `ℚ`. -/
def excelWidthToPx (w : ℚ) : ℤ :=
  jsRound (w * 7 + 5)

/-- `colorToCss` (App.js line 25): normalize a parser color string to a CSS
hex color.  `!rgb` is falsy for `null`/absent and for the empty string; an
8-character value drops the leading 2-character alpha; the JS ternary chain
leaves any other length unchanged. -/
def colorToCss (rgb : Option String) : Option String :=
  match rgb with
  | none => none
  | some s =>
    if s = "" then none
    else
      let body := if s.length = 8 then jsSlice s 2 else if s.length = 6 then s else s
      if body = "" then none else some ("#" ++ body)

/-- `rgbToHex` (App.js line 584, later revision): same normalization, but any
length other than 8 or 6 yields no color. -/
def rgbToHex (rgb : Option String) : Option String :=
  match rgb with
  | none => none
  | some s =>
    if s = "" then none
    else
      let hex : Option String :=
        if s.length = 8 then some (jsSlice s 2) else if s.length = 6 then some s else none
      match hex with
      | none => none
      | some h => if h = "" then none else some ("#" ++ h)

/-- One entry of the parser's `!cols` array: a missing/falsy entry, a bare
number, or an object with optional `wpx`/`width`/`wch` fields
(the case-variant duplicate field names of the JS are merged). -/
inductive ColSpec
  | absent
  | num (n : ℚ)
  | obj (wpx width wch : Option ℚ)
deriving Repr

/-- The per-entry conversion of App.js lines 89-97: falsy entry falls back to
`excelWidthToPx 10`; else `wpx` verbatim if truthy; else `width` through
`excelWidthToPx`; else `wch * 7` rounded; a bare nonzero number goes through
`excelWidthToPx`; anything else falls back to `excelWidthToPx 10`. -/
def colEntryPx : ColSpec → ℚ
  | .absent => (excelWidthToPx 10 : ℤ)
  | .num n => if n = 0 then (excelWidthToPx 10 : ℤ) else (excelWidthToPx n : ℤ)
  | .obj wpx width wch =>
    if jsTruthyOptQ wpx then wpx.getD 0
    else if jsTruthyOptQ width then (excelWidthToPx (width.getD 0) : ℤ)
    else if jsTruthyOptQ wch then (jsRound (wch.getD 0 * 7) : ℤ)
    else (excelWidthToPx 10 : ℤ)

/-- One entry of the parser's `!rows` array. -/
inductive RowSpec
  | absent
  | obj (hpx h : Option ℚ)
deriving Repr

/-- The per-entry conversion of App.js lines 104-108: falsy entry is 26;
else `hpx` verbatim; else `h * 1.333` rounded; else 26. -/
def rowEntryPx : RowSpec → ℚ
  | .absent => 26
  | .obj hpx h =>
    if jsTruthyOptQ hpx then hpx.getD 0
    else if jsTruthyOptQ h then (jsRound (h.getD 0 * (1333/1000)) : ℤ)
    else 26

/-- A parser color object with optional `rgb`/`rgba` string fields
(case-variant duplicates of the JS merged). -/
structure ColorSpec where
  rgb : Option String
  rgba : Option String

/-- A parser fill object: optional foreground/background color objects, plus
the fill's own color fields (used when `fgColor` is absent, via the JS
`s.fill.fgColor || s.fill` fallback). -/
structure FillSpec where
  fgColor : Option ColorSpec
  bgColor : Option ColorSpec
  rgb : Option String
  rgba : Option String

/-- A parser cell style object: `cell.s`, holding an optional `fill`. -/
structure StyleSpec where
  fill : Option FillSpec

/-- A parsed cell of the sparse sheet table: optional formula text `f`
(stored without a leading `=`, per the parser's convention), optional literal
value `v`, optional style `s`. -/
structure XCell where
  f : Option String
  v : Option JSVal
  s : Option StyleSpec

/-- The used-range descriptor produced by `decode_range` on `ws["!ref"]`. -/
structure CellRange where
  sr : Nat
  sc : Nat
  er : Nat
  ec : Nat

/-- A parsed worksheet: optional used range, the sparse cell table (addressed
by row/column, `none` where `ws[addr]` is `undefined`), and the optional
`!cols` / `!rows` metadata arrays. -/
structure Worksheet where
  ref : Option CellRange
  cells : Nat → Nat → Option XCell
  cols : Option (List ColSpec)
  rowsMeta : Option (List RowSpec)

/-- The cell-decoding step of `extractSheetData` (App.js lines 49-57,
working.js lines 21-29): an absent cell decodes to the empty string; a cell
with truthy formula text decodes to the text with `=` prepended; else a
present literal value decodes to itself; else to the empty string. -/
def decodeCell (oc : Option XCell) : JSVal :=
  match oc with
  | none => .vStr ""
  | some cell =>
    if jsTruthyOptStr cell.f then .vStr ("=" ++ cell.f.getD "")
    else
      match cell.v with
      | some v => v
      | none => .vStr ""

/-- `fg.rgb || fg.RGB || fg.rgba`: first truthy color string of a color
object. -/
def firstTruthy (a b : Option String) : Option String :=
  if jsTruthyOptStr a then a else if jsTruthyOptStr b then b else none

/-- `s.fill.fgColor || s.fill.FgColor || s.fill` followed by the color-field
chain: the color string the foreground path of App.js lines 65-66 finds. -/
def fgColorStr (fill : FillSpec) : Option String :=
  match fill.fgColor with
  | some c => firstTruthy c.rgb c.rgba
  | none => firstTruthy fill.rgb fill.rgba

/-- The per-cell background extraction of App.js lines 60-75: foreground
fill color first, then the fill's background color, else no color. -/
def bgOfCell (oc : Option XCell) : Option String :=
  match oc with
  | none => none
  | some cell =>
    match cell.s with
    | none => none
    | some st =>
      match st.fill with
      | none => none
      | some fill =>
        match fgColorStr fill with
        | some bgc => colorToCss (some bgc)
        | none =>
          match fill.bgColor with
          | some bc => if jsTruthyOptStr bc.rgb then colorToCss bc.rgb else none
          | none => none

/-- `colWidthsPx` of App.js lines 86-100: present only when `!cols` is a
nonempty array, in which case each entry is converted by `colEntryPx`. -/
def colWidthsPx (ws : Worksheet) : Option (List ℚ) :=
  match ws.cols with
  | some cs => if 0 < cs.length then some (cs.map colEntryPx) else none
  | none => none

/-- `rowHeightsPx` of App.js lines 102-112. -/
def rowHeightsPx (ws : Worksheet) : Option (List ℚ) :=
  match ws.rowsMeta with
  | some rs => if 0 < rs.length then some (rs.map rowEntryPx) else none
  | none => none

/-- The result record of `extractSheetData` (App.js line 114). -/
structure ExtractResult where
  aoa : List (List JSVal)
  styles : List (List (Option String))
  colWidthsPx : Option (List ℚ)
  rowHeightsPx : Option (List ℚ)
  hasExplicitCols : Bool
  hasExplicitRows : Bool

/-- `extractSheetData` (App.js lines 34-122): with no `!ref`, a degenerate
single empty row and empty style row; otherwise one pass over the used range
building the value row and style row in parallel, plus the sizing arrays. -/
def extractSheetData (ws : Worksheet) : ExtractResult :=
  match ws.ref with
  | none => ⟨[[]], [[]], none, none, false, false⟩
  | some range =>
    let nr := range.er + 1 - range.sr
    let nc := range.ec + 1 - range.sc
    let rowsAndStyles :=
      (List.range nr).map (fun i =>
        ((List.range nc).map (fun j => decodeCell (ws.cells (range.sr + i) (range.sc + j))),
         (List.range nc).map (fun j => bgOfCell (ws.cells (range.sr + i) (range.sc + j)))))
    { aoa := rowsAndStyles.map Prod.fst
      styles := rowsAndStyles.map Prod.snd
      colWidthsPx := colWidthsPx ws
      rowHeightsPx := rowHeightsPx ws
      hasExplicitCols := (colWidthsPx ws).isSome
      hasExplicitRows := (rowHeightsPx ws).isSome }

/-- A JavaScript array: a length and a lookup that yields `none` for holes
and out-of-range reads.  Indexed assignment past the end extends the length
(leaving holes), as in JS. -/
structure JArr (α : Type) where
  size : Nat
  get : Nat → Option α

/-- The empty JS array `[]`. -/
def JArr.mkEmpty {α : Type} : JArr α :=
  ⟨0, fun _ => none⟩

/-- JS indexed assignment `a[i] = v`: extends `length` to `i + 1` when `i`
is past the end. -/
def JArr.set {α : Type} (a : JArr α) (i : Nat) (v : α) : JArr α :=
  ⟨max a.size (i + 1), fun j => if j = i then some v else a.get j⟩

/-- A JS array built from a dense list. -/
def JArr.fromList {α : Type} (l : List α) : JArr α :=
  ⟨l.length, fun i => l[i]?⟩

/-- A 2-dimensional grid as a JS array of JS arrays. -/
def JGrid (α : Type) : Type :=
  JArr (JArr α)

/-- Read one cell of a grid: `none` when the row or the cell is a hole. -/
def get2 {α : Type} (g : JGrid α) (i j : Nat) : Option α :=
  (g.get i).bind (fun r => r.get j)

/-- A grid built from a dense list of lists. -/
def gridFromList {α : Type} (l : List (List α)) : JGrid α :=
  JArr.fromList (l.map JArr.fromList)

/-- One sheet's entry in the workbook state (App.js lines 171-177): the
computed-value snapshot `data`, the editable `raw` grid, and optional sizing
metadata. -/
structure SheetEntry where
  data : List (List JSVal)
  raw : JGrid JSVal
  colWidths : Option (List ℚ)
  rowHeights : Option (List ℚ)

/-- The workbook state: sheet name to entry, in load order. -/
structure Workbook where
  entries : List (String × SheetEntry)

/-- JS object-key lookup on an association list. -/
def assocFind {α : Type} : List (String × α) → String → Option α
  | [], _ => none
  | p :: rest, n => if p.1 = n then some p.2 else assocFind rest n

/-- Update the value stored under one key, leaving other keys unchanged. -/
def assocUpdate {α : Type} (l : List (String × α)) (n : String) (f : α → α) :
    List (String × α) :=
  l.map (fun p => if p.1 = n then (p.1, f p.2) else p)

/-- The formula engine's state, as far as the repository observes it: the
sheets created by `addSheet`, and the per-sheet per-cell contents pushed via
`setSheetContent` / `setCellContents`.  Evaluation itself is external and is
passed to the operations as an abstract function `evalF` from the full
content map and a sheet name to that sheet's evaluated grid. -/
structure EngineState where
  sheets : List String
  content : String → Nat → Nat → Option JSVal

/-- The type of the abstract HyperFormula evaluation function. -/
def EvalFun : Type :=
  (String → Nat → Nat → Option JSVal) → String → List (List JSVal)

/-- `hf.setCellContents({sheet, col, row}, [[v]])`: replace exactly one
cell's content. -/
def setCellContents (e : EngineState) (name : String) (row col : Nat) (v : JSVal) :
    EngineState :=
  { e with
    content := fun n i j =>
      if n = name ∧ i = row ∧ j = col then some v else e.content n i j }

/-- `hf.getSheetValues(getSheetId name)`: the engine's current evaluation of
one sheet, under the abstract evaluation function. -/
def getSheetValues (evalF : EvalFun) (e : EngineState) (name : String) :
    List (List JSVal) :=
  evalF e.content name

/-- The whole component state the handlers close over: `workbookData`,
`activeSheet`, `hfInstanceRef.current`, `stylesRef.current`. -/
structure AppState where
  workbookData : Workbook
  activeSheet : Option String
  hfInstance : Option EngineState
  stylesRef : List (String × List (List (Option String)))

/-- One element of the `changes` array the grid widget reports:
`[row, col, oldValue, newValue]`. -/
structure Change where
  row : Nat
  col : Nat
  oldValue : Option JSVal
  newValue : Option JSVal

/-- The `input` computation of App.js line 265: a string starting with `=`
is kept verbatim; otherwise `newValue ?? ""` (so `null`/`undefined` becomes
the empty string and any other value is kept as is). -/
def editInput (newValue : Option JSVal) : JSVal :=
  match newValue with
  | some (.vStr s) => if s.startsWith "=" then .vStr s else .vStr s
  | some v => v
  | none => .vStr ""

/-- The `raw` update of App.js lines 266-267: `if (!raw[row]) raw[row] = []`
followed by `raw[row][col] = input`. -/
def rawSet (raw : JGrid JSVal) (row col : Nat) (v : JSVal) : JGrid JSVal :=
  let r0 := match raw.get row with
    | some r => r
    | none => JArr.mkEmpty
  JArr.set raw row (JArr.set r0 col v)

/-- One iteration of the `changes.forEach` loop of App.js lines 263-271:
skip when `activeSheet` is falsy; else write `input` into the active sheet's
`raw` and push the string coercion of `input` into the engine. -/
def applyChange (active : Option String) (acc : Workbook × EngineState) (ch : Change) :
    Workbook × EngineState :=
  if jsTruthyOptStr active then
    let name := active.getD ""
    let input := editInput ch.newValue
    let wb' : Workbook :=
      ⟨assocUpdate acc.1.entries name
        (fun ent => { ent with raw := rawSet ent.raw ch.row ch.col input })⟩
    let cellVal := if input = .vStr "" then "" else jsString input
    (wb', setCellContents acc.2 name ch.row ch.col (.vStr cellVal))
  else acc

/-- The resync loop of App.js lines 275-278 (also handleRefresh): every
sheet's `data` is overwritten with the engine's current values. -/
def resyncAll (evalF : EvalFun) (wb : Workbook) (e : EngineState) : Workbook :=
  ⟨wb.entries.map (fun p => (p.1, { p.2 with data := getSheetValues evalF e p.1 }))⟩

/-- `handleAfterChange` (App.js lines 258-292): ignore `loadData` events,
null change lists, and a missing engine; otherwise apply every change to the
active sheet's `raw` and to the engine inside one batch, then resync every
sheet's `data` from the engine. -/
def handleAfterChange (evalF : EvalFun) (st : AppState)
    (changes : Option (List Change)) (source : String) : AppState :=
  match st.hfInstance with
  | none => st
  | some engine =>
    if source = "loadData" then st
    else
      match changes with
      | none => st
      | some chs =>
        let wbe := chs.foldl (applyChange st.activeSheet) (st.workbookData, engine)
        { st with
          workbookData := resyncAll evalF wbe.1 wbe.2
          hfInstance := some wbe.2 }

/-- The synchronization relation between one engine cell and one `raw` cell:
the engine holds either the identical content (as after seeding) or the
string coercion of the raw content (as after an edit). -/
def cellSynced (ec rc : Option JSVal) : Prop :=
  ec = rc ∨ ∃ v, rc = some v ∧ ec = some (.vStr (jsString v))

/-- Cell-wise synchronization of an engine sheet with a `raw` grid. -/
def gridSynced (ec : Nat → Nat → Option JSVal) (raw : JGrid JSVal) : Prop :=
  ∀ i j, cellSynced (ec i j) (get2 raw i j)

/-- A string of positive length is not the empty string. -/
theorem str_ne_empty_of_length_pos (s : String) (h : 0 < s.length) : s ≠ "" := by
  intro he
  subst he
  have h0 : ("" : String).length = 0 := rfl
  omega

/-- Length of a JS slice. -/
theorem jsSlice_length (s : String) (n : Nat) : (jsSlice s n).length = s.length - n := by
  have h1 : (jsSlice s n).length = (s.data.drop n).length := rfl
  have h2 : s.length = s.data.length := rfl
  rw [h1, h2, List.length_drop]

/-- C7: color normalization maps an 8-hex-character input to `#` followed by
the last 6 characters (the input with its leading 2-character alpha dropped),
a 6-character input to `#` followed by the input unchanged, and an absent
input to no color; in particular "FF336699" and "336699" both normalize to
"#336699".  Both revisions of the normalizer (`colorToCss` and `rgbToHex`)
are covered. -/
theorem color_normalization (s8 s6 : String)
    (h8 : s8.length = 8) (h6 : s6.length = 6) :
    colorToCss (some s8) = some ("#" ++ jsSlice s8 2) ∧
    rgbToHex (some s8) = some ("#" ++ jsSlice s8 2) ∧
    colorToCss (some s6) = some ("#" ++ s6) ∧
    rgbToHex (some s6) = some ("#" ++ s6) ∧
    colorToCss none = none ∧
    rgbToHex none = none ∧
    colorToCss (some "FF336699") = some "#336699" ∧
    rgbToHex (some "FF336699") = some "#336699" ∧
    colorToCss (some "336699") = some "#336699" ∧
    rgbToHex (some "336699") = some "#336699" := by
  have h8ne : s8 ≠ "" := str_ne_empty_of_length_pos s8 (by omega)
  have h6ne : s6 ≠ "" := str_ne_empty_of_length_pos s6 (by omega)
  have hsl : jsSlice s8 2 ≠ "" := by
    apply str_ne_empty_of_length_pos
    rw [jsSlice_length]
    omega
  have h68 : s6.length ≠ 8 := by omega
  refine ⟨?_, ?_, ?_, ?_, rfl, rfl, by decide, by decide, by decide, by decide⟩
  · simp [colorToCss, h8ne, h8, hsl]
  · simp [rgbToHex, h8ne, h8, hsl]
  · simp [colorToCss, h6ne, h68, h6]
  · simp [rgbToHex, h6ne, h68, h6]

/-- Witness for C7 at the spec's own example inputs. -/
theorem color_normalization_witness :
    ("FF336699".length = 8 ∧ "336699".length = 6) ∧
    (colorToCss (some "FF336699") = some ("#" ++ jsSlice "FF336699" 2) ∧
     rgbToHex (some "FF336699") = some ("#" ++ jsSlice "FF336699" 2) ∧
     colorToCss (some "336699") = some ("#" ++ "336699") ∧
     rgbToHex (some "336699") = some ("#" ++ "336699") ∧
     colorToCss none = none ∧
     rgbToHex none = none ∧
     colorToCss (some "FF336699") = some "#336699" ∧
     rgbToHex (some "FF336699") = some "#336699" ∧
     colorToCss (some "336699") = some "#336699" ∧
     rgbToHex (some "336699") = some "#336699") :=
  ⟨by decide, color_normalization "FF336699" "336699" (by decide) (by decide)⟩

/-- C8: each source column-width entry converts to: the `wpx` field verbatim
when truthy; else `Math.round(width * 7 + 5)` from the `width` field; else
`Math.round(wch * 7)` from the `wch` field; else the fixed fallback 75
(`excelWidthToPx 10`); in particular a character width of 10 converts to 75
pixels, and a worksheet with no `!cols` metadata emits no width array. -/
theorem column_width_conversion (wpx width wch : Option ℚ) (p w c : ℚ)
    (ws : Worksheet) (l : List ColSpec) :
    (wpx = some p → p ≠ 0 → colEntryPx (.obj wpx width wch) = p) ∧
    (jsTruthyOptQ wpx = false → width = some w → w ≠ 0 →
      colEntryPx (.obj wpx width wch) = (jsRound (w * 7 + 5) : ℤ)) ∧
    (jsTruthyOptQ wpx = false → jsTruthyOptQ width = false → wch = some c → c ≠ 0 →
      colEntryPx (.obj wpx width wch) = (jsRound (c * 7) : ℤ)) ∧
    (jsTruthyOptQ wpx = false → jsTruthyOptQ width = false → jsTruthyOptQ wch = false →
      colEntryPx (.obj wpx width wch) = 75) ∧
    colEntryPx (.obj none (some 10) none) = 75 ∧
    (ws.cols = some l → 0 < l.length → colWidthsPx ws = some (l.map colEntryPx)) ∧
    (ws.cols = none → (extractSheetData ws).colWidthsPx = none) := by
  have h75 : (excelWidthToPx 10 : ℤ) = 75 := by norm_num [excelWidthToPx, jsRound]
  refine ⟨?_, ?_, ?_, ?_, ?_, ?_, ?_⟩
  · intro hp hp0
    subst hp
    have ht : jsTruthyOptQ (some p) = true := by simp [jsTruthyOptQ, bne_iff_ne, hp0]
    simp [colEntryPx, ht]
  · intro hx hw hw0
    subst hw
    have ht : jsTruthyOptQ (some w) = true := by simp [jsTruthyOptQ, bne_iff_ne, hw0]
    simp [colEntryPx, hx, ht, excelWidthToPx]
  · intro hx hw hc hc0
    subst hc
    have ht : jsTruthyOptQ (some c) = true := by simp [jsTruthyOptQ, bne_iff_ne, hc0]
    simp [colEntryPx, hx, hw, ht]
  · intro hx hw hc
    simp [colEntryPx, hx, hw, hc, h75]
  · have ht : jsTruthyOptQ (some (10 : ℚ)) = true := by norm_num [jsTruthyOptQ]
    have hf : jsTruthyOptQ (none : Option ℚ) = false := rfl
    simp [colEntryPx, ht, hf, excelWidthToPx]
    norm_num [jsRound]
  · intro hc hl
    simp [colWidthsPx, hc, hl]
  · intro hc
    unfold extractSheetData
    cases hr : ws.ref with
    | none => simp
    | some range => simp [colWidthsPx, hc]

/-- Witness for C8: a concrete entry carrying only a character width of 10,
and a worksheet with no column metadata. -/
theorem column_width_conversion_witness :
    ((some (42 : ℚ)) = some (42 : ℚ) ∧ (42 : ℚ) ≠ 0 ∧
     jsTruthyOptQ (none : Option ℚ) = false ∧
     (Worksheet.mk none (fun _ _ => none) none none).cols = none) ∧
    (colEntryPx (.obj (some 42) (some 10) none) = 42 ∧
     colEntryPx (.obj none (some 10) none) = 75 ∧
     colWidthsPx (Worksheet.mk none (fun _ _ => none) (some [.obj none (some 10) none]) none) =
       some [colEntryPx (.obj none (some 10) none)] ∧
     (extractSheetData (Worksheet.mk none (fun _ _ => none) none none)).colWidthsPx = none) := by
  refine ⟨⟨rfl, by norm_num, rfl, rfl⟩, ?_, ?_, ?_, ?_⟩
  · exact (column_width_conversion (some 42) (some 10) none 42 10 0
      (Worksheet.mk none (fun _ _ => none) none none) []).1 rfl (by norm_num)
  · exact (column_width_conversion none (some 10) none 0 10 0
      (Worksheet.mk none (fun _ _ => none) none none) []).2.2.2.2.1
  · exact (column_width_conversion none none none 0 0 0
      (Worksheet.mk none (fun _ _ => none) (some [.obj none (some 10) none]) none)
      [.obj none (some 10) none]).2.2.2.2.2.1 rfl (by norm_num)
  · exact (column_width_conversion none none none 0 0 0
      (Worksheet.mk none (fun _ _ => none) none none) []).2.2.2.2.2.2 rfl

/-- C2: for every address inside the used range, the decoded grid holds: the
formula text with a leading `=` prepended when the cell carries (truthy)
formula text; else the literal value when the cell carries one; else the
empty string; and an address absent from the sparse table decodes to the
empty string. -/
theorem cell_decoding (ws : Worksheet) (range : CellRange) (R C : Nat)
    (href : ws.ref = some range)
    (hR1 : range.sr ≤ R) (hR2 : R ≤ range.er)
    (hC1 : range.sc ≤ C) (hC2 : C ≤ range.ec) :
    ((extractSheetData ws).aoa[R - range.sr]?.bind (fun row => row[C - range.sc]?)
      = some (decodeCell (ws.cells R C))) ∧
    (∀ cell fs, ws.cells R C = some cell → cell.f = some fs → fs ≠ "" →
      decodeCell (ws.cells R C) = .vStr ("=" ++ fs)) ∧
    (∀ cell v, ws.cells R C = some cell → jsTruthyOptStr cell.f = false →
      cell.v = some v → decodeCell (ws.cells R C) = v) ∧
    (∀ cell, ws.cells R C = some cell → jsTruthyOptStr cell.f = false →
      cell.v = none → decodeCell (ws.cells R C) = .vStr "") ∧
    (ws.cells R C = none → decodeCell (ws.cells R C) = .vStr "") := by
  have hnr : R - range.sr < range.er + 1 - range.sr := by omega
  have hnc : C - range.sc < range.ec + 1 - range.sc := by omega
  have hRr : range.sr + (R - range.sr) = R := by omega
  have hCc : range.sc + (C - range.sc) = C := by omega
  refine ⟨?_, ?_, ?_, ?_, ?_⟩
  · simp only [extractSheetData, href]
    simp [List.getElem?_map, List.getElem?_range, hnr, hnc, hRr, hCc]
  · intro cell fs hc hf hfs
    have ht : jsTruthyOptStr (some fs) = true := by
      simp [jsTruthyOptStr, bne_iff_ne, hfs]
    simp [decodeCell, hc, hf, ht]
  · intro cell v hc hf hv
    simp [decodeCell, hc, hf, hv]
  · intro cell hc hf hv
    simp [decodeCell, hc, hf, hv]
  · intro hc
    simp [decodeCell, hc]

/-- Witness for C2 on a one-cell sheet whose cell carries formula text. -/
theorem cell_decoding_witness :
    ((Worksheet.mk (some (CellRange.mk 0 0 0 0))
        (fun r c => if r = 0 ∧ c = 0 then some (XCell.mk (some "A1+1") none none) else none)
        none none).ref = some (CellRange.mk 0 0 0 0) ∧ (0 : Nat) ≤ 0) ∧
    (((extractSheetData (Worksheet.mk (some (CellRange.mk 0 0 0 0))
        (fun r c => if r = 0 ∧ c = 0 then some (XCell.mk (some "A1+1") none none) else none)
        none none)).aoa[0 - 0]?.bind (fun row => row[0 - 0]?)
      = some (decodeCell ((Worksheet.mk (some (CellRange.mk 0 0 0 0))
        (fun r c => if r = 0 ∧ c = 0 then some (XCell.mk (some "A1+1") none none) else none)
        none none).cells 0 0))) ∧
     (∀ cell fs, (Worksheet.mk (some (CellRange.mk 0 0 0 0))
        (fun r c => if r = 0 ∧ c = 0 then some (XCell.mk (some "A1+1") none none) else none)
        none none).cells 0 0 = some cell → cell.f = some fs → fs ≠ "" →
      decodeCell ((Worksheet.mk (some (CellRange.mk 0 0 0 0))
        (fun r c => if r = 0 ∧ c = 0 then some (XCell.mk (some "A1+1") none none) else none)
        none none).cells 0 0) = .vStr ("=" ++ fs))) :=
  ⟨⟨rfl, by decide⟩,
   (cell_decoding _ (CellRange.mk 0 0 0 0) 0 0 rfl (by decide) (by decide) (by decide)
      (by decide)).1,
   (cell_decoding _ (CellRange.mk 0 0 0 0) 0 0 rfl (by decide) (by decide) (by decide)
      (by decide)).2.1⟩

/-- C3 counterexample: a cell whose stored formula text already starts with
`=` (text "=A1") decodes to "==A1", which does start with `==` — the decoder
prepends `=` unconditionally, so the prefixing step is not idempotent. -/
theorem formula_prefix_not_idempotent :
    (['='] <+: ("=A1").data) ∧
    decodeCell (some (XCell.mk (some "=A1") none none)) = .vStr "==A1" ∧
    (['=', '='] <+: ("==A1").data) := by
  refine ⟨⟨"A1".data, by decide⟩, by decide, ⟨"A1".data, by decide⟩⟩

/-- C3 amended: the decoder prepends `=` unconditionally, so decoding a cell
whose stored formula text does NOT start with `=` (the parser's convention
for stored formula text) never yields a value starting with `==`. -/
theorem formula_prefix_single (cell : XCell) (fs : String)
    (hf : cell.f = some fs) (hfs : fs ≠ "") (hnp : ¬ (['='] <+: fs.data)) :
    decodeCell (some cell) = .vStr ("=" ++ fs) ∧
    ¬ (['=', '='] <+: ("=" ++ fs).data) := by
  have ht : jsTruthyOptStr (some fs) = true := by
    simp [jsTruthyOptStr, bne_iff_ne, hfs]
  constructor
  · simp [decodeCell, hf, ht]
  · have hd : ("=" ++ fs).data = '=' :: fs.data := by
      rw [String.data_append]
      rfl
    rw [hd]
    intro hpre
    rw [List.cons_prefix_cons] at hpre
    exact hnp hpre.2

/-- Witness for the amended C3 on the stored formula text "A1". -/
theorem formula_prefix_single_witness :
    ((XCell.mk (some "A1") none none).f = some "A1" ∧ "A1" ≠ "" ∧
      ¬ (['='] <+: ("A1").data)) ∧
    (decodeCell (some (XCell.mk (some "A1") none none)) = .vStr ("=" ++ "A1") ∧
      ¬ (['=', '='] <+: ("=" ++ "A1").data)) :=
  ⟨⟨rfl, by decide, by decide⟩,
   formula_prefix_single (XCell.mk (some "A1") none none) "A1" rfl (by decide) (by decide)⟩

/-- C4: a parsed sheet with no used-range descriptor decodes to a degenerate
empty sheet — one empty raw row and one empty style row, with no sizing
arrays — rather than an error (the embedding is a total function). -/
theorem no_used_range_degenerate (ws : Worksheet) (h : ws.ref = none) :
    (extractSheetData ws).aoa = [[]] ∧
    (extractSheetData ws).styles = [[]] ∧
    (extractSheetData ws).colWidthsPx = none ∧
    (extractSheetData ws).rowHeightsPx = none := by
  simp [extractSheetData, h]

/-- Witness for C4 on a concrete worksheet without a used range. -/
theorem no_used_range_degenerate_witness :
    ((Worksheet.mk none (fun _ _ => none) none none).ref = none) ∧
    ((extractSheetData (Worksheet.mk none (fun _ _ => none) none none)).aoa = [[]] ∧
     (extractSheetData (Worksheet.mk none (fun _ _ => none) none none)).styles = [[]] ∧
     (extractSheetData (Worksheet.mk none (fun _ _ => none) none none)).colWidthsPx = none ∧
     (extractSheetData (Worksheet.mk none (fun _ _ => none) none none)).rowHeightsPx = none) :=
  ⟨rfl, no_used_range_degenerate (Worksheet.mk none (fun _ _ => none) none none) rfl⟩

/-- Lookup after an association-list update: the updated key's value is
mapped, every other key is untouched. -/
theorem assocFind_update {α : Type} (l : List (String × α)) (n m : String) (f : α → α) :
    assocFind (assocUpdate l n f) m =
      if m = n then (assocFind l m).map f else assocFind l m := by
  induction l with
  | nil => simp [assocUpdate, assocFind]
  | cons p rest ih =>
    simp only [assocUpdate] at ih ⊢
    by_cases h1 : p.1 = n
    · by_cases h2 : p.1 = m
      · have hmn : m = n := by rw [← h1, h2]
        simp [assocFind, h1, h2, hmn]
      · have hnm : ¬ n = m := fun h => h2 (h1.trans h)
        have hmn : ¬ m = n := fun h => hnm h.symm
        simp [assocFind, h1, h2, hnm, hmn, ih]
    · by_cases h2 : p.1 = m
      · have hmn : m ≠ n := by rw [← h2]; exact h1
        simp [assocFind, h1, h2, hmn]
      · simp [assocFind, h1, h2, ih]

/-- The string pushed to the engine on an edit equals the JS string coercion
of the input (the `input === "" ? "" : String(input)` conditional collapses,
since `String("") = ""`). -/
theorem cellVal_eq_jsString (input : JSVal) :
    (if input = .vStr "" then "" else jsString input) = jsString input := by
  by_cases h : input = .vStr ""
  · rw [if_pos h, h]
    rfl
  · rw [if_neg h]

/-- C6: an edit on an existing sheet at (row, col) extends `raw` so the
position is addressable and writes there exactly: the new value verbatim if
it is a string starting with `=`; else the value itself; else the empty
string when the value is absent. -/
theorem apply_edit (wb : Workbook) (e : EngineState) (a : String) (ent : SheetEntry)
    (ch : Change) (ha : a ≠ "") (hent : assocFind wb.entries a = some ent) :
    ∃ ent', assocFind (applyChange (some a) (wb, e) ch).1.entries a = some ent' ∧
      ent'.raw = rawSet ent.raw ch.row ch.col (editInput ch.newValue) ∧
      ch.row < ent'.raw.size ∧
      (∃ rowArr, ent'.raw.get ch.row = some rowArr ∧ ch.col < rowArr.size ∧
        rowArr.get ch.col = some (editInput ch.newValue)) ∧
      (∀ s, ch.newValue = some (.vStr s) → s.startsWith "=" →
        editInput ch.newValue = .vStr s) ∧
      (∀ v, ch.newValue = some v → editInput ch.newValue = v) ∧
      (ch.newValue = none → editInput ch.newValue = .vStr "") := by
  have ht : jsTruthyOptStr (some a) = true := by
    simp [jsTruthyOptStr, bne_iff_ne, ha]
  refine ⟨{ ent with raw := rawSet ent.raw ch.row ch.col (editInput ch.newValue) },
    ?_, rfl, ?_, ?_, ?_, ?_, ?_⟩
  · simp only [applyChange, ht, if_pos]
    rw [assocFind_update]
    simp [hent]
  · simp [rawSet, JArr.set]
  · refine ⟨JArr.set (match ent.raw.get ch.row with
      | some r => r
      | none => JArr.mkEmpty) ch.col (editInput ch.newValue), ?_, ?_, ?_⟩
    · simp [rawSet, JArr.set]
    · simp [JArr.set]
    · simp [JArr.set]
  · intro s hs hpre
    simp [editInput, hs]
  · intro v hv
    cases v <;> simp [editInput, hv]
  · intro hv
    simp [editInput, hv]

/-- Witness for C6: a fresh value written at row 2, column 1 of a sheet whose
`raw` grid is 1 by 1. -/
theorem apply_edit_witness :
    ("S" ≠ "" ∧
      assocFind [("S", SheetEntry.mk [] (gridFromList [[.vStr "x"]]) none none)] "S"
        = some (SheetEntry.mk [] (gridFromList [[.vStr "x"]]) none none)) ∧
    (∃ ent', assocFind (applyChange (some "S")
        (Workbook.mk [("S", SheetEntry.mk [] (gridFromList [[.vStr "x"]]) none none)],
          EngineState.mk ["S"] (fun _ _ _ => none))
        (Change.mk 2 1 none (some (.vNum 7)))).1.entries "S" = some ent' ∧
      ent'.raw = rawSet (SheetEntry.mk [] (gridFromList [[.vStr "x"]]) none none).raw 2 1
        (editInput (some (.vNum 7))) ∧
      2 < ent'.raw.size ∧
      (∃ rowArr, ent'.raw.get 2 = some rowArr ∧ 1 < rowArr.size ∧
        rowArr.get 1 = some (editInput (some (.vNum 7)))) ∧
      (∀ s, (some (.vNum 7) : Option JSVal) = some (.vStr s) → s.startsWith "=" →
        editInput (some (.vNum 7)) = .vStr s) ∧
      (∀ v, (some (.vNum 7) : Option JSVal) = some v → editInput (some (.vNum 7)) = v) ∧
      ((some (.vNum 7) : Option JSVal) = none → editInput (some (.vNum 7)) = .vStr "")) :=
  ⟨⟨by decide, rfl⟩,
   by
    have h := apply_edit
      (Workbook.mk [("S", SheetEntry.mk [] (gridFromList [[.vStr "x"]]) none none)])
      (EngineState.mk ["S"] (fun _ _ _ => none)) "S"
      (SheetEntry.mk [] (gridFromList [[.vStr "x"]]) none none)
      (Change.mk 2 1 none (some (.vNum 7))) (by decide) rfl
    exact h⟩

/-- C10: the content pushed to the engine for an edited cell is always a
string — the JS string coercion of the value written to `raw`; empty input
is pushed as the empty string and a number as its decimal string form. -/
theorem engine_push_string (wb : Workbook) (e : EngineState) (a : String) (ch : Change)
    (ha : a ≠ "") :
    ((applyChange (some a) (wb, e) ch).2.content a ch.row ch.col
        = some (.vStr (jsString (editInput ch.newValue)))) ∧
    (editInput ch.newValue = .vStr "" →
      (applyChange (some a) (wb, e) ch).2.content a ch.row ch.col = some (.vStr "")) ∧
    (∀ n : Int, editInput ch.newValue = .vNum n →
      (applyChange (some a) (wb, e) ch).2.content a ch.row ch.col
        = some (.vStr (toString n))) := by
  have ht : jsTruthyOptStr (some a) = true := by
    simp [jsTruthyOptStr, bne_iff_ne, ha]
  have hcell : (applyChange (some a) (wb, e) ch).2.content a ch.row ch.col
      = some (.vStr (jsString (editInput ch.newValue))) := by
    simp only [applyChange, ht, if_pos]
    simp [setCellContents, cellVal_eq_jsString]
  refine ⟨hcell, ?_, ?_⟩
  · intro h0
    rw [hcell, h0]
    rfl
  · intro n hn
    rw [hcell, hn]
    rfl

/-- Witness for C10: editing with the number 7 pushes the string "7". -/
theorem engine_push_string_witness :
    ("S" ≠ "") ∧
    (((applyChange (some "S")
        (Workbook.mk [], EngineState.mk ["S"] (fun _ _ _ => none))
        (Change.mk 0 0 none (some (.vNum 7)))).2.content "S" 0 0
        = some (.vStr (jsString (editInput (some (.vNum 7)))))) ∧
     (editInput (some (.vNum 7)) = .vStr "" →
      ((applyChange (some "S")
        (Workbook.mk [], EngineState.mk ["S"] (fun _ _ _ => none))
        (Change.mk 0 0 none (some (.vNum 7)))).2.content "S" 0 0 = some (.vStr ""))) ∧
     (∀ n : Int, editInput (some (.vNum 7)) = .vNum n →
      ((applyChange (some "S")
        (Workbook.mk [], EngineState.mk ["S"] (fun _ _ _ => none))
        (Change.mk 0 0 none (some (.vNum 7)))).2.content "S" 0 0
        = some (.vStr (toString n))))) :=
  ⟨by decide,
   engine_push_string (Workbook.mk []) (EngineState.mk ["S"] (fun _ _ _ => none)) "S"
     (Change.mk 0 0 none (some (.vNum 7))) (by decide)⟩

/-- Reading back the edited position after `rawSet`. -/
theorem rawSet_get2_eq (raw : JGrid JSVal) (row col : Nat) (v : JSVal) :
    get2 (rawSet raw row col v) row col = some v := by
  simp [rawSet, JArr.set, get2]

/-- `rawSet` leaves every other position unchanged. -/
theorem rawSet_get2_ne (raw : JGrid JSVal) (row col i j : Nat) (v : JSVal)
    (h : ¬ (i = row ∧ j = col)) :
    get2 (rawSet raw row col v) i j = get2 raw i j := by
  by_cases hi : i = row
  · subst hi
    have hj : j ≠ col := fun hj => h ⟨rfl, hj⟩
    cases hr : raw.get i with
    | none => simp [rawSet, JArr.set, get2, hr, hj, JArr.mkEmpty]
    | some r => simp [rawSet, JArr.set, get2, hr, hj]
  · simp [rawSet, JArr.set, get2, hi]

/-- One step of the edit loop preserves cell-wise engine/raw
synchronization for every sheet of the workbook. -/
theorem applyChange_synced (active : Option String) (wb : Workbook) (e : EngineState)
    (ch : Change)
    (hsync : ∀ n ent, assocFind wb.entries n = some ent → gridSynced (e.content n) ent.raw) :
    ∀ n ent, assocFind (applyChange active (wb, e) ch).1.entries n = some ent →
      gridSynced ((applyChange active (wb, e) ch).2.content n) ent.raw := by
  cases ht : jsTruthyOptStr active with
  | false =>
    intro n ent h
    simp only [applyChange, ht] at h ⊢
    simp only [Bool.false_eq_true, if_false] at h ⊢
    exact hsync n ent h
  | true =>
    cases active with
    | none => simp [jsTruthyOptStr] at ht
    | some a =>
      intro n ent h
      simp only [applyChange, ht, if_true, Option.getD_some] at h ⊢
      rw [assocFind_update] at h
      by_cases hn : n = a
      · subst hn
        rw [if_pos rfl] at h
        cases h0 : assocFind wb.entries n with
        | none => rw [h0] at h; simp at h
        | some ent0 =>
          rw [h0] at h
          simp only [Option.map] at h
          injection h with h
          subst h
          intro i j
          by_cases hij : i = ch.row ∧ j = ch.col
          · obtain ⟨hi, hj⟩ := hij
            subst hi
            subst hj
            simp only [setCellContents]
            rw [if_pos (show True ∧ True ∧ True from ⟨trivial, trivial, trivial⟩)]
            rw [rawSet_get2_eq]
            exact Or.inr ⟨editInput ch.newValue, rfl, by rw [cellVal_eq_jsString]⟩
          · simp only [setCellContents]
            rw [if_neg (show ¬ (True ∧ i = ch.row ∧ j = ch.col) from
              fun hc => hij ⟨hc.2.1, hc.2.2⟩)]
            rw [rawSet_get2_ne _ _ _ _ _ _ hij]
            exact hsync n ent0 h0 i j
      · rw [if_neg hn] at h
        intro i j
        simp only [setCellContents]
        have hcond : ¬ (n = a ∧ i = ch.row ∧ j = ch.col) := fun hc => hn hc.1
        rw [if_neg hcond]
        exact hsync n ent h i j

/-- The whole batch loop preserves engine/raw synchronization. -/
theorem foldl_applyChange_synced (active : Option String) (chs : List Change) :
    ∀ (wb : Workbook) (e : EngineState),
      (∀ n ent, assocFind wb.entries n = some ent → gridSynced (e.content n) ent.raw) →
      ∀ n ent, assocFind (chs.foldl (applyChange active) (wb, e)).1.entries n = some ent →
        gridSynced ((chs.foldl (applyChange active) (wb, e)).2.content n) ent.raw := by
  induction chs with
  | nil => intro wb e h; exact h
  | cons ch rest ih =>
    intro wb e h
    simp only [List.foldl_cons]
    exact ih (applyChange active (wb, e) ch).1 (applyChange active (wb, e) ch).2
      (applyChange_synced active wb e ch h)

/-- Lookup through a key-preserving pointwise map of an association list. -/
theorem assocFind_map_keyed {α : Type} (l : List (String × α)) (g : String → α → α)
    (n : String) :
    assocFind (l.map (fun p => (p.1, g p.1 p.2))) n = (assocFind l n).map (g n) := by
  induction l with
  | nil => rfl
  | cons p rest ih =>
    by_cases h : p.1 = n
    · subst h
      simp [assocFind, ih]
    · simp [assocFind, h, ih]

/-- Lookup after the full resync: the found entry is the old one with `data`
replaced by the engine's current values for that sheet. -/
theorem assocFind_resync (evalF : EvalFun) (wb : Workbook) (e : EngineState) (n : String) :
    assocFind (resyncAll evalF wb e).entries n
      = (assocFind wb.entries n).map
          (fun ent => { ent with data := getSheetValues evalF e n }) := by
  exact assocFind_map_keyed wb.entries
    (fun name ent => { ent with data := getSheetValues evalF e name }) n

/-- C1: after every edit batch handled by `handleAfterChange` (a user batch:
source is not "loadData", the engine exists), every sheet of the workbook —
not only the active one — has `data` equal to the engine's evaluation at
batch close, and the engine's stored contents remain cell-wise synchronized
with that sheet's `raw` grid (equal, or the string coercion written by an
edit), so `data` is the engine's most recent evaluation of `raw`. -/
theorem batch_close_sync (evalF : EvalFun) (st : AppState) (engine : EngineState)
    (chs : List Change) (source : String)
    (hhf : st.hfInstance = some engine)
    (hsrc : source ≠ "loadData")
    (hsync : ∀ n ent, assocFind st.workbookData.entries n = some ent →
      gridSynced (engine.content n) ent.raw) :
    ∃ e', (handleAfterChange evalF st (some chs) source).hfInstance = some e' ∧
      ∀ n ent,
        assocFind (handleAfterChange evalF st (some chs) source).workbookData.entries n
          = some ent →
        ent.data = getSheetValues evalF e' n ∧ gridSynced (e'.content n) ent.raw := by
  refine ⟨(chs.foldl (applyChange st.activeSheet) (st.workbookData, engine)).2, ?_, ?_⟩
  · simp [handleAfterChange, hhf, hsrc]
  · intro n ent h
    simp only [handleAfterChange, hhf, hsrc, if_false] at h
    rw [assocFind_resync] at h
    cases h0 : assocFind
        (chs.foldl (applyChange st.activeSheet) (st.workbookData, engine)).1.entries n with
    | none => rw [h0] at h; simp at h
    | some ent0 =>
      rw [h0] at h
      simp only [Option.map] at h
      injection h with h
      subst h
      exact ⟨rfl, foldl_applyChange_synced st.activeSheet chs st.workbookData engine
        hsync n ent0 h0⟩

/-- Witness for C1: a one-sheet workbook whose engine content was seeded
identical to `raw`, one user edit, source "edit". -/
theorem batch_close_sync_witness :
    ((AppState.mk
        (Workbook.mk [("S", SheetEntry.mk [] (gridFromList [[.vStr "x"]]) none none)])
        (some "S")
        (some (EngineState.mk ["S"] (fun _ i j => get2 (gridFromList [[.vStr "x"]]) i j)))
        []).hfInstance
      = some (EngineState.mk ["S"] (fun _ i j => get2 (gridFromList [[.vStr "x"]]) i j)) ∧
     ("edit" : String) ≠ "loadData") ∧
    (∃ e', (handleAfterChange (fun _ _ => [])
        (AppState.mk
          (Workbook.mk [("S", SheetEntry.mk [] (gridFromList [[.vStr "x"]]) none none)])
          (some "S")
          (some (EngineState.mk ["S"] (fun _ i j => get2 (gridFromList [[.vStr "x"]]) i j)))
          [])
        (some [Change.mk 0 0 none (some (.vNum 7))]) "edit").hfInstance = some e' ∧
      ∀ n ent,
        assocFind (handleAfterChange (fun _ _ => [])
          (AppState.mk
            (Workbook.mk [("S", SheetEntry.mk [] (gridFromList [[.vStr "x"]]) none none)])
            (some "S")
            (some (EngineState.mk ["S"] (fun _ i j => get2 (gridFromList [[.vStr "x"]]) i j)))
            [])
          (some [Change.mk 0 0 none (some (.vNum 7))]) "edit").workbookData.entries n
          = some ent →
        ent.data = getSheetValues (fun _ _ => []) e' n ∧
        gridSynced (e'.content n) ent.raw) :=
  ⟨⟨rfl, by decide⟩,
   batch_close_sync (fun _ _ => [])
     (AppState.mk
       (Workbook.mk [("S", SheetEntry.mk [] (gridFromList [[.vStr "x"]]) none none)])
       (some "S")
       (some (EngineState.mk ["S"] (fun _ i j => get2 (gridFromList [[.vStr "x"]]) i j)))
       [])
     (EngineState.mk ["S"] (fun _ i j => get2 (gridFromList [[.vStr "x"]]) i j))
     [Change.mk 0 0 none (some (.vNum 7))] "edit" rfl (by decide)
     (by
       intro n ent h
       simp only [assocFind] at h
       by_cases h1 : ("S" : String) = n
       · rw [if_pos h1] at h
         injection h with h2
         subst h2
         intro i j
         exact Or.inl rfl
       · rw [if_neg h1] at h
         exact absurd h (by simp))⟩

/-- C5 counterexample: on a workbook whose sheet "S" has a 1-by-1 `raw` grid
and a 1-row styles grid, an edit batch writing at row 2 pads `raw` to 3 rows
while the styles grid keeps 1 row — the handler never touches `stylesRef` —
so `raw` and `styles` do not have equal row counts after this operation. -/
theorem dims_not_preserved_by_edit :
    (∃ ent,
      assocFind (handleAfterChange (fun _ _ => [])
        (AppState.mk
          (Workbook.mk [("S", SheetEntry.mk [[.vStr "x"]] (gridFromList [[.vStr "x"]]) none none)])
          (some "S") (some (EngineState.mk ["S"] (fun _ _ _ => none)))
          [("S", [[(none : Option String)]])])
        (some [Change.mk 2 0 none (some (.vStr "y"))]) "edit").workbookData.entries "S"
        = some ent ∧
      ent.raw.size = 3) ∧
    (handleAfterChange (fun _ _ => [])
      (AppState.mk
        (Workbook.mk [("S", SheetEntry.mk [[.vStr "x"]] (gridFromList [[.vStr "x"]]) none none)])
        (some "S") (some (EngineState.mk ["S"] (fun _ _ _ => none)))
        [("S", [[(none : Option String)]])])
      (some [Change.mk 2 0 none (some (.vStr "y"))]) "edit").stylesRef
      = [("S", [[(none : Option String)]])] ∧
    ([[(none : Option String)]] : List (List (Option String))).length = 1 ∧
    ¬ ((3 : Nat) = 1) := by
  refine ⟨⟨_, rfl, rfl⟩, rfl, rfl, by decide⟩

/-- C5 amended: at decode time every sheet's raw grid and style grid have
equal row count and, row by row, equal column count (`data` is whatever grid
the external engine returns, and a later edit that pads `raw` repads neither
`styles` nor `data`). -/
theorem decoded_dims_eq (ws : Worksheet) :
    (extractSheetData ws).aoa.length = (extractSheetData ws).styles.length ∧
    ∀ i : Nat, ((extractSheetData ws).aoa[i]?.map (fun r : List JSVal => r.length))
        = ((extractSheetData ws).styles[i]?.map (fun r : List (Option String) => r.length)) := by
  cases href : ws.ref with
  | none =>
    constructor
    · simp [extractSheetData, href]
    · intro i
      simp only [extractSheetData, href]
      cases i <;> rfl
  | some range =>
    constructor
    · simp [extractSheetData, href]
    · intro i
      by_cases hi : i < range.er + 1 - range.sr
      · simp [extractSheetData, href, List.getElem?_map, List.getElem?_range, hi]
      · have hlen1 : (extractSheetData ws).aoa.length = range.er + 1 - range.sr := by
          simp [extractSheetData, href]
        have hlen2 : (extractSheetData ws).styles.length = range.er + 1 - range.sr := by
          simp [extractSheetData, href]
        have e1 : (extractSheetData ws).aoa[i]? = (none : Option (List JSVal)) :=
          List.getElem?_eq_none (by omega)
        have e2 : (extractSheetData ws).styles[i]?
            = (none : Option (List (Option String))) :=
          List.getElem?_eq_none (by omega)
        rw [e1, e2]
        rfl

/-- Modelled from the spec: a word character, as in the regex class `\w`,
used by the Placeholder Resolver's pattern (the resolver component itself is
not present under src/). -/
def isWordChar (c : Char) : Bool :=
  c.isAlphanum || c = '_'

/-- Modelled from the spec: full-cell match of the placeholder pattern — two
opening braces, one or more word characters (the key), two closing braces,
and nothing else.  Returns the enclosed key on a match. -/
def placeholderKey (s : String) : Option String :=
  match s.data with
  | '{' :: '{' :: rest =>
    match rest.reverse with
    | '}' :: '}' :: revMid =>
      let mid := revMid.reverse
      if mid ≠ [] ∧ mid.all isWordChar then some (String.mk mid) else none
    | _ => none
  | _ => none

/-- Modelled from the spec: the replacement the fetched mapping provides for
one cell value — only a string cell whose entire content matches the
placeholder pattern and whose key exists in the mapping gets one. -/
def replacementFor (mapping : List (String × JSVal)) (v : JSVal) : Option JSVal :=
  match v with
  | .vStr s =>
    match placeholderKey s with
    | some k => assocFind mapping k
    | none => none
  | _ => none

/-- Modelled from the spec: the substituted cell value — the replacement
when one exists, else the cell unchanged. -/
def substVal (mapping : List (String × JSVal)) (v : JSVal) : JSVal :=
  match replacementFor mapping v with
  | some repl => repl
  | none => v

/-- Map a function over the stored values of a JS array, preserving length
and holes. -/
def JArr.mapj {α β : Type} (f : α → β) (a : JArr α) : JArr β :=
  ⟨a.size, fun i => (a.get i).map f⟩

/-- Map a function over every cell of a grid. -/
def gridMap {α : Type} (f : α → α) (g : JGrid α) : JGrid α :=
  JArr.mapj (JArr.mapj f) g

/-- Modelled from the spec: the engine contents after the resolver pushed
each replaced cell's new value — exactly the cells of `raw` that carry a
full-cell placeholder with a mapped key change; everything else keeps the
engine's old content. -/
def resolveContent (mapping : List (String × JSVal)) (wb : Workbook)
    (old : String → Nat → Nat → Option JSVal) : String → Nat → Nat → Option JSVal :=
  fun n i j =>
    match assocFind wb.entries n with
    | some ent =>
      match get2 ent.raw i j with
      | some v =>
        match replacementFor mapping v with
        | some repl => some repl
        | none => old n i j
      | none => old n i j
    | none => old n i j

/-- Modelled from the spec: the Placeholder Resolver (spec section 4.5),
which is not present under src/.  Given the fetched key-to-value mapping it
scans every sheet's `raw` grid, replaces every cell whose entire content
matches the placeholder pattern with a mapped key, pushes the same value
into the engine for that cell, and then triggers the same full resync as the
edit protocol. -/
def resolvePlaceholders (evalF : EvalFun) (mapping : List (String × JSVal))
    (st : AppState) : AppState :=
  match st.hfInstance with
  | none => st
  | some e =>
    let wb' : Workbook :=
      ⟨st.workbookData.entries.map
        (fun p => (p.1, { p.2 with raw := gridMap (substVal mapping) p.2.raw }))⟩
    let e' : EngineState :=
      { e with content := resolveContent mapping st.workbookData e.content }
    { st with workbookData := resyncAll evalF wb' e', hfInstance := some e' }

/-- Reading a cell of a mapped grid. -/
theorem get2_gridMap {α : Type} (f : α → α) (g : JGrid α) (i j : Nat) :
    get2 (gridMap f g) i j = (get2 g i j).map f := by
  simp only [gridMap, JArr.mapj, get2]
  cases g.get i with
  | none => rfl
  | some r => rfl

/-- Lookup and engine after placeholder resolution: every entry's `raw` is
the substituted grid (with `data` resynced), and the engine state carries the
resolved contents. -/
theorem resolvePlaceholders_find (evalF : EvalFun) (mapping : List (String × JSVal))
    (st : AppState) (e : EngineState) (n : String) (hhf : st.hfInstance = some e) :
    (assocFind (resolvePlaceholders evalF mapping st).workbookData.entries n
      = (assocFind st.workbookData.entries n).map (fun ent =>
          { ent with
            raw := gridMap (substVal mapping) ent.raw
            data := getSheetValues evalF
              { e with content := resolveContent mapping st.workbookData e.content } n })) ∧
    (resolvePlaceholders evalF mapping st).hfInstance
      = some { e with content := resolveContent mapping st.workbookData e.content } := by
  constructor
  · simp only [resolvePlaceholders, hhf]
    rw [assocFind_resync]
    rw [assocFind_map_keyed st.workbookData.entries
      (fun _ ent => { ent with raw := gridMap (substVal mapping) ent.raw }) n]
    cases assocFind st.workbookData.entries n with
    | none => rfl
    | some ent => rfl
  · simp [resolvePlaceholders, hhf]

/-- C9: placeholder resolution replaces a `raw` cell (and pushes the same
value to the engine) exactly when the cell's entire content matches the
double-brace word-character pattern and the enclosed key exists in the
mapping; a cell that merely contains the pattern as a substring, or whose
key is unmapped, is left unchanged (and the engine keeps its old content);
in particular the whole-cell placeholder around key 9999 matches and the
same text with a prefix and suffix does not. -/
theorem placeholder_resolution (evalF : EvalFun) (mapping : List (String × JSVal))
    (st : AppState) (e : EngineState) (n : String) (ent : SheetEntry) (i j : Nat)
    (s : String)
    (hhf : st.hfInstance = some e)
    (hent : assocFind st.workbookData.entries n = some ent)
    (hcell : get2 ent.raw i j = some (.vStr s)) :
    (∀ k v, placeholderKey s = some k → assocFind mapping k = some v →
      ∃ ent' e',
        assocFind (resolvePlaceholders evalF mapping st).workbookData.entries n
          = some ent' ∧
        get2 ent'.raw i j = some v ∧
        (resolvePlaceholders evalF mapping st).hfInstance = some e' ∧
        e'.content n i j = some v) ∧
    (placeholderKey s = none →
      ∃ ent' e',
        assocFind (resolvePlaceholders evalF mapping st).workbookData.entries n
          = some ent' ∧
        get2 ent'.raw i j = some (.vStr s) ∧
        (resolvePlaceholders evalF mapping st).hfInstance = some e' ∧
        e'.content n i j = e.content n i j) ∧
    (∀ k, placeholderKey s = some k → assocFind mapping k = none →
      ∃ ent' e',
        assocFind (resolvePlaceholders evalF mapping st).workbookData.entries n
          = some ent' ∧
        get2 ent'.raw i j = some (.vStr s) ∧
        (resolvePlaceholders evalF mapping st).hfInstance = some e' ∧
        e'.content n i j = e.content n i j) ∧
    placeholderKey "\x7b\x7b9999\x7d\x7d" = some "9999" ∧
    placeholderKey "prefix\x7b\x7b9999\x7d\x7dsuffix" = none := by
  obtain ⟨hfind, hinst⟩ := resolvePlaceholders_find evalF mapping st e n hhf
  rw [hent] at hfind
  simp only [Option.map] at hfind
  refine ⟨?_, ?_, ?_, by decide, by decide⟩
  · intro k v hk hv
    refine ⟨_, _, hfind, ?_, hinst, ?_⟩
    · rw [get2_gridMap, hcell]
      simp only [Option.map]
      simp [substVal, replacementFor, hk, hv]
    · simp only [resolveContent, hent, hcell, replacementFor, hk, hv]
  · intro hk
    refine ⟨_, _, hfind, ?_, hinst, ?_⟩
    · rw [get2_gridMap, hcell]
      simp only [Option.map]
      simp [substVal, replacementFor, hk]
    · simp only [resolveContent, hent, hcell, replacementFor, hk]
  · intro k hk hv
    refine ⟨_, _, hfind, ?_, hinst, ?_⟩
    · rw [get2_gridMap, hcell]
      simp only [Option.map]
      simp [substVal, replacementFor, hk, hv]
    · simp only [resolveContent, hent, hcell, replacementFor, hk, hv]

/-- Witness for C9: a one-sheet workbook whose only cell is exactly the
placeholder around key 9999, with mapping 9999 to "Hi". -/
theorem placeholder_resolution_witness :
    ((AppState.mk (Workbook.mk [("S", SheetEntry.mk []
        (gridFromList [[.vStr "\x7b\x7b9999\x7d\x7d"]]) none none)])
        (some "S") (some (EngineState.mk ["S"] (fun _ _ _ => none))) []).hfInstance = some (EngineState.mk ["S"] (fun _ _ _ => none)) ∧
     assocFind (AppState.mk (Workbook.mk [("S", SheetEntry.mk []
        (gridFromList [[.vStr "\x7b\x7b9999\x7d\x7d"]]) none none)])
        (some "S") (some (EngineState.mk ["S"] (fun _ _ _ => none))) []).workbookData.entries "S" = some (SheetEntry.mk [] (gridFromList [[.vStr "\x7b\x7b9999\x7d\x7d"]]) none none) ∧
     get2 (SheetEntry.mk [] (gridFromList [[.vStr "\x7b\x7b9999\x7d\x7d"]]) none none).raw 0 0 = some (.vStr "\x7b\x7b9999\x7d\x7d")) ∧
    ((∀ k v, placeholderKey "\x7b\x7b9999\x7d\x7d" = some k →
        assocFind [("9999", JSVal.vStr "Hi")] k = some v →
      ∃ ent' e',
        assocFind (resolvePlaceholders (fun _ _ => []) [("9999", JSVal.vStr "Hi")] (AppState.mk (Workbook.mk [("S", SheetEntry.mk []
        (gridFromList [[.vStr "\x7b\x7b9999\x7d\x7d"]]) none none)])
        (some "S") (some (EngineState.mk ["S"] (fun _ _ _ => none))) [])).workbookData.entries "S" = some ent' ∧
        get2 ent'.raw 0 0 = some v ∧
        (resolvePlaceholders (fun _ _ => []) [("9999", JSVal.vStr "Hi")] (AppState.mk (Workbook.mk [("S", SheetEntry.mk []
        (gridFromList [[.vStr "\x7b\x7b9999\x7d\x7d"]]) none none)])
        (some "S") (some (EngineState.mk ["S"] (fun _ _ _ => none))) [])).hfInstance = some e' ∧
        e'.content "S" 0 0 = some v) ∧
     (placeholderKey "\x7b\x7b9999\x7d\x7d" = none →
      ∃ ent' e',
        assocFind (resolvePlaceholders (fun _ _ => []) [("9999", JSVal.vStr "Hi")] (AppState.mk (Workbook.mk [("S", SheetEntry.mk []
        (gridFromList [[.vStr "\x7b\x7b9999\x7d\x7d"]]) none none)])
        (some "S") (some (EngineState.mk ["S"] (fun _ _ _ => none))) [])).workbookData.entries "S" = some ent' ∧
        get2 ent'.raw 0 0 = some (.vStr "\x7b\x7b9999\x7d\x7d") ∧
        (resolvePlaceholders (fun _ _ => []) [("9999", JSVal.vStr "Hi")] (AppState.mk (Workbook.mk [("S", SheetEntry.mk []
        (gridFromList [[.vStr "\x7b\x7b9999\x7d\x7d"]]) none none)])
        (some "S") (some (EngineState.mk ["S"] (fun _ _ _ => none))) [])).hfInstance = some e' ∧
        e'.content "S" 0 0 = (EngineState.mk ["S"] (fun _ _ _ => none)).content "S" 0 0) ∧
     (∀ k, placeholderKey "\x7b\x7b9999\x7d\x7d" = some k →
        assocFind [("9999", JSVal.vStr "Hi")] k = none →
      ∃ ent' e',
        assocFind (resolvePlaceholders (fun _ _ => []) [("9999", JSVal.vStr "Hi")] (AppState.mk (Workbook.mk [("S", SheetEntry.mk []
        (gridFromList [[.vStr "\x7b\x7b9999\x7d\x7d"]]) none none)])
        (some "S") (some (EngineState.mk ["S"] (fun _ _ _ => none))) [])).workbookData.entries "S" = some ent' ∧
        get2 ent'.raw 0 0 = some (.vStr "\x7b\x7b9999\x7d\x7d") ∧
        (resolvePlaceholders (fun _ _ => []) [("9999", JSVal.vStr "Hi")] (AppState.mk (Workbook.mk [("S", SheetEntry.mk []
        (gridFromList [[.vStr "\x7b\x7b9999\x7d\x7d"]]) none none)])
        (some "S") (some (EngineState.mk ["S"] (fun _ _ _ => none))) [])).hfInstance = some e' ∧
        e'.content "S" 0 0 = (EngineState.mk ["S"] (fun _ _ _ => none)).content "S" 0 0) ∧
     placeholderKey "\x7b\x7b9999\x7d\x7d" = some "9999" ∧
     placeholderKey "prefix\x7b\x7b9999\x7d\x7dsuffix" = none) :=
  ⟨⟨rfl, rfl, rfl⟩,
   placeholder_resolution (fun _ _ => []) [("9999", JSVal.vStr "Hi")] (AppState.mk (Workbook.mk [("S", SheetEntry.mk []
        (gridFromList [[.vStr "\x7b\x7b9999\x7d\x7d"]]) none none)])
        (some "S") (some (EngineState.mk ["S"] (fun _ _ _ => none))) []) (EngineState.mk ["S"] (fun _ _ _ => none)) "S" (SheetEntry.mk [] (gridFromList [[.vStr "\x7b\x7b9999\x7d\x7d"]]) none none) 0 0
     "\x7b\x7b9999\x7d\x7d" rfl rfl rfl⟩
